import Mathlib

/-!
A shallow embedding of the test-runner detection and focus-selection core of
the `devtriage` repository (files `src/devtriage/runners.py` and the legacy
script `devtriage.py`), together with theorems settling the specification
claims about it.

Modelling conventions:
* The filesystem is a function from path strings to a `FileState`
  (absent / unreadable / readable with content).  `Path.exists()` is true for
  both unreadable and readable files; `read_text()` succeeds only on readable
  files, and every read failure is caught by the Python code.
* `package.json` is modelled by its parse outcome (`PkgFile`): absent, a read
  or JSON parse failure (both collapse to the empty dict in
  `read_package_json`), or a parsed JSON value.
* A parsed JSON value (`JsonVal`) models the result of Python `json.loads`:
  an object is the resulting Python dict, an association list with unique keys
  in insertion order; numbers are modelled as integers (no claim touches
  numeric content).
* Python exceptions escaping a function are modelled with `Except Unit`;
  `Except.error ()` means the Python code raises.
* The version-control collaborator (`git diff --name-only HEAD` through
  `run_cmd`) is modelled by its outcome: failure (any raised exception) or the
  captured stdout text.
-/

namespace Devtriage

/-- Does the character list `n` occur at the front of `h`? -/
def charsStart : List Char → List Char → Bool
  | [], _ => true
  | _ :: _, [] => false
  | a :: as, b :: bs => a == b && charsStart as bs

/-- Does the character list `n` occur contiguously anywhere inside `h`?
(Model of Python `n in h` on strings.) -/
def charsHas (n : List Char) : List Char → Bool
  | [] => n.isEmpty
  | b :: bs => charsStart n (b :: bs) || charsHas n bs

/-- Python `needle in hay` for strings: substring containment. -/
def strHas (hay needle : String) : Bool :=
  charsHas needle.data hay.data

/-- Python `s.startswith(pre)`. -/
def strStarts (s pre : String) : Bool :=
  charsStart pre.data s.data

/-- Python `s.endswith(suf)`. -/
def strEnds (s suf : String) : Bool :=
  charsStart suf.data.reverse s.data.reverse

/-- Python `str.strip()` whitespace characters (ASCII part). -/
def pyWhite (c : Char) : Bool :=
  c == ' ' || c == '\t' || c == '\n' || c == '\r' || c == '\x0b' || c == '\x0c'

/-- Python `s.strip()`: drop leading and trailing whitespace. -/
def pyStrip (s : String) : String :=
  String.mk (((s.data.dropWhile pyWhite).reverse.dropWhile pyWhite).reverse)

/-- Split a character list on a separator character; the result always has
one more piece than there are separators. -/
def splitChar (c : Char) : List Char → List (List Char)
  | [] => [[]]
  | x :: xs =>
    let r := splitChar c xs
    if x == c then [] :: r
    else
      match r with
      | [] => [[x]]
      | h :: t => (x :: h) :: t

/-- The components of a relative path string, as produced by
`pathlib.Path(p).parts`: split on `/`, dropping empty components and `.`. -/
def pathParts (p : String) : List String :=
  ((splitChar '/' p.data).map String.mk).filter (fun s => s ≠ "" && s ≠ ".")

/-- Model of `pathlib.Path(p).name`: the final path component (empty for an empty path). -/
def pathName (p : String) : String :=
  (pathParts p).getLast?.getD ""

/-- Split a character list at its last `.`: returns the part before the last
dot and the part after it, or `none` when no dot occurs. -/
def lastDotSplit : List Char → Option (List Char × List Char)
  | [] => none
  | c :: rest =>
    match lastDotSplit rest with
    | some (st, ex) => some (c :: st, ex)
    | none => if c == '.' then some ([], rest) else none

/-- CPython name splitting: `(stem, suffix)` of a file name.  The suffix is
taken at the last dot, but only when that dot is neither the first nor the
last character of the name (CPython `PurePath.stem`/`suffix`). -/
def nameSplit (name : String) : String × String :=
  match lastDotSplit name.data with
  | some (st, ex) =>
    if st.isEmpty || ex.isEmpty then (name, "")
    else (String.mk st, String.mk ('.' :: ex))
  | none => (name, "")

/-- Model of `pathlib.Path(p).stem`. -/
def pathStem (p : String) : String := (nameSplit (pathName p)).1

/-- Model of `pathlib.Path(p).suffix`. -/
def pathSuffix (p : String) : String := (nameSplit (pathName p)).2

/-- Model of `str(pathlib.Path(p))`: the normalised path string. -/
def strOfPath (p : String) : String :=
  if pathParts p = [] then "." else String.intercalate "/" (pathParts p)

/-- The state of one file in the working directory. -/
inductive FileState
  | absent
  | unreadable
  | readable (content : String)
deriving DecidableEq

/-- Model of `pathlib.Path(p).exists()`: true for readable and unreadable files. -/
def fsExists (fs : String → FileState) (p : String) : Bool :=
  match fs p with
  | .absent => false
  | _ => true

/-- Model of `file_contains(path, needle)` from `runners.py`: substring check on the
file's text, with every read failure caught and turned into `False`. -/
def file_contains (fs : String → FileState) (p : String) (needle : String) : Bool :=
  match fs p with
  | .readable content => strHas content needle
  | _ => false

/-- A parsed JSON value, as produced by Python `json.loads`.  An `obj` is the
resulting Python dict: an association list with unique keys in insertion
order.  JSON numbers are modelled as integers. -/
inductive JsonVal
  | obj (fields : List (String × JsonVal))
  | arr (elems : List JsonVal)
  | str (s : String)
  | num (n : Int)
  | bool (b : Bool)
  | null

/-- Python truthiness of a JSON value: empty dict/list/string, zero, `False`
and `None` are falsy. -/
def truthy : JsonVal → Bool
  | .obj fields => !fields.isEmpty
  | .arr elems => !elems.isEmpty
  | .str s => !s.isEmpty
  | .num n => n != 0
  | .bool b => b
  | .null => false

/-- Python `dict.get(key)` on a parsed JSON object (unique keys, so first
match): `none` models Python `None`. -/
def olookup (fields : List (String × JsonVal)) (key : String) : Option JsonVal :=
  match fields.find? (fun kv => kv.1 == key) with
  | some kv => some kv.2
  | none => none

/-- Python `x.get(key) or {}`: a missing or falsy value is replaced by the
empty dict. -/
def pyOrEmpty (v : Option JsonVal) : JsonVal :=
  match v with
  | some j => if truthy j then j else .obj []
  | none => .obj []

/-- Python `{**d}` key extraction: succeeds with the key list when the value
is a dict, raises (`TypeError`) otherwise. -/
def dictKeys : JsonVal → Except Unit (List String)
  | .obj fields => .ok (fields.map (fun kv => kv.1))
  | _ => .error ()

/-- The values of a dict, each required to be a string; raises on the first
non-string value (Python `str.join` over `dict.values()`). -/
def strValues : List (String × JsonVal) → Except Unit (List String)
  | [] => .ok []
  | (_, .str s) :: rest => (strValues rest).map (fun t => s :: t)
  | _ :: _ => .error ()

/-- Values of a scripts dict, each required to be a string, joined by a single
space: Python `" ".join(scripts.values())`.  Raises when `scripts` is not a
dict (`.values()` on a non-dict) or some value is not a string (`join`). -/
def scriptBlob : JsonVal → Except Unit String
  | .obj fields => (strValues fields).map (String.intercalate " ")
  | _ => .error ()

/-- The parse outcome of `package.json`: absent, unreadable-or-malformed, or a
parsed JSON value. -/
inductive PkgFile
  | absent
  | malformed
  | parsed (j : JsonVal)

/-- Model of `read_package_json()` from `runners.py`: an absent file and any read or
parse failure both yield the empty dict. -/
def read_package_json : PkgFile → JsonVal
  | .absent => .obj []
  | .malformed => .obj []
  | .parsed j => j

/-- The outcome of the version-control query `git diff --name-only HEAD`:
either a raised failure or the captured stdout text. -/
inductive GitResult
  | failure
  | output (out : String)

/-- The ambient state a CLI invocation reads: the `package.json` parse
outcome, the marker-file filesystem, and the version-control outcome. -/
structure Env where
  pkg : PkgFile
  fs : String → FileState
  git : GitResult

def SUPPORTED_RUNNERS : List String := ["pytest", "nose", "jest", "mocha"]

def PYTHON_TEST_EXTENSIONS : List String := [".py"]

def JS_TEST_EXTENSIONS : List String := [".js", ".jsx", ".ts", ".tsx"]

/-- Lines 34–45 of `detect_test_runner`: the manifest (jest/mocha) phase.
When the manifest parse result is truthy it must be a dict (`.get` raises on
anything else); the merged `dependencies`/`devDependencies` keys and the
space-joined script values decide jest, then mocha; otherwise no JS evidence.
The evaluation order matches the source: the dependency merge raises before
the script join is attempted. -/
def jsPhase (pkg : JsonVal) : Except Unit (Option String) :=
  if truthy pkg then
    match pkg with
    | .obj fields =>
      let scriptsV := pyOrEmpty (olookup fields "scripts")
      do
        let depKeys ← dictKeys (pyOrEmpty (olookup fields "dependencies"))
        let devKeys ← dictKeys (pyOrEmpty (olookup fields "devDependencies"))
        let blob ← scriptBlob scriptsV
        if (depKeys ++ devKeys).contains "jest" || strHas blob "jest" then
          pure (some "jest")
        else if (depKeys ++ devKeys).contains "mocha" || strHas blob "mocha" then
          pure (some "mocha")
        else
          pure none
    | _ => .error ()
  else
    pure none

def pytestMarkers : List String :=
  ["pytest.ini", "conftest.py", "tox.ini", "setup.cfg", "pyproject.toml"]

def contentCheckedMarkers : List String := ["setup.cfg", "tox.ini", "pyproject.toml"]

def noseMarkers : List String := ["nose.cfg", "setup.cfg", "tox.ini"]

/-- The pytest marker loop of `detect_test_runner` (lines 46–59): first marker
that exists and — for `setup.cfg`/`tox.ini`/`pyproject.toml` — contains the
substring `pytest` yields `pytest`; `pytest.ini` and `conftest.py` count by
mere existence. -/
def pytestScan (fs : String → FileState) : Option String :=
  pytestMarkers.findSome? (fun marker =>
    if fsExists fs marker then
      if contentCheckedMarkers.contains marker then
        if file_contains fs marker "pytest" then some "pytest" else none
      else some "pytest"
    else none)

/-- The nose marker loop of `detect_test_runner` (lines 60–63): first marker
that exists and contains `nosetests` yields `nose`. -/
def noseScan (fs : String → FileState) : Option String :=
  noseMarkers.findSome? (fun marker =>
    if fsExists fs marker && file_contains fs marker "nosetests" then some "nose"
    else none)

/-- Model of `detect_test_runner()` from `runners.py` (identical in `devtriage.py`):
manifest phase first, then the pytest markers, then the nose markers, then the
default `pytest`.  `Except.error ()` models the uncaught Python exception
raised when the manifest parses to a truthy non-dict or has malformed
`scripts`/`dependencies`/`devDependencies` fields. -/
def detect_test_runner (env : Env) : Except Unit String := do
  let js ← jsPhase (read_package_json env.pkg)
  match js with
  | some r => pure r
  | none =>
    match pytestScan env.fs with
    | some r => pure r
    | none =>
      match noseScan env.fs with
      | some r => pure r
      | none => pure "pytest"

/-- Model of `get_git_changed_files()`: on any failure the empty list; otherwise the
stripped non-empty lines of the captured stdout. -/
def get_git_changed_files (env : Env) : List String :=
  match env.git with
  | .failure => []
  | .output out =>
    (((splitChar '\n' out.data).map (fun l => pyStrip (String.mk l))).filter
      (fun l => !l.isEmpty))

/-- Order-preserving deduplication keeping the first occurrence of each
element: the model of Python `list(dict.fromkeys(xs))`, which inserts keys
left to right and appends each unseen key.  `seen` holds the keys already
inserted. -/
def dedupSeen (seen : List String) : List String → List String
  | [] => []
  | x :: xs =>
    if seen.contains x then dedupSeen seen xs
    else x :: dedupSeen (x :: seen) xs

/-- Model of `list(dict.fromkeys(xs))`. -/
def dedupKeepFirst (xs : List String) : List String := dedupSeen [] xs

/-- The targets one kept changed Python file contributes inside the loop of
`find_changed_python_tests` (lines 78–89): the file itself when it is a test
file (a `tests` path component, a `test_` stem start, or a `_test` stem end),
otherwise the companion candidates `tests/test_<stem>.py` and
`tests/<stem>_test.py` that exist on disk, in that order. -/
def pyContrib (fs : String → FileState) (file : String) : List String :=
  let stem := pathStem file
  if (pathParts file).contains "tests" || strStarts stem "test_"
      || strEnds stem "_test" then
    [strOfPath file]
  else
    (if fsExists fs ("tests/test_" ++ stem ++ ".py") then
      ["tests/test_" ++ stem ++ ".py"] else []) ++
    (if fsExists fs ("tests/" ++ stem ++ "_test.py") then
      ["tests/" ++ stem ++ "_test.py"] else [])

/-- The pre-deduplication `tests` list built by `find_changed_python_tests`:
keep only `.py` files, then accumulate each file's contribution. -/
def pyTestsRaw (fs : String → FileState) (changed : List String) : List String :=
  ((changed.filter (fun f => PYTHON_TEST_EXTENSIONS.contains (pathSuffix f))).map
    (pyContrib fs)).flatten

/-- The changed-file-to-test mapping of `find_changed_python_tests`,
factored over an explicit changed-file list (the spec's
`map_python_tests(changed_files)`). -/
def map_python_tests (fs : String → FileState) (changed : List String) : List String :=
  dedupKeepFirst (pyTestsRaw fs changed)

/-- Model of `find_changed_python_tests()` from `runners.py`. -/
def find_changed_python_tests (env : Env) : List String :=
  map_python_tests env.fs (get_git_changed_files env)

/-- The targets one kept changed JS/TS file contributes inside the loop of
`find_changed_js_tests` (lines 96–108): the file itself when its name
contains `.test.`, its stem starts with `test_` or ends with `_test`, or the
path has a `__tests__` or `tests` component; otherwise the companion
`tests/<stem>.test<suffix>` when it exists on disk. -/
def jsContrib (fs : String → FileState) (file : String) : List String :=
  if strHas (pathName file) ".test." || strStarts (pathStem file) "test_"
      || strEnds (pathStem file) "_test" || (pathParts file).contains "__tests__"
      || (pathParts file).contains "tests" then
    [strOfPath file]
  else
    if fsExists fs ("tests/" ++ pathStem file ++ ".test" ++ pathSuffix file) then
      ["tests/" ++ pathStem file ++ ".test" ++ pathSuffix file]
    else []

/-- The pre-deduplication `tests` list built by `find_changed_js_tests`. -/
def jsTestsRaw (fs : String → FileState) (changed : List String) : List String :=
  ((changed.filter (fun f => JS_TEST_EXTENSIONS.contains (pathSuffix f))).map
    (jsContrib fs)).flatten

/-- The changed-file-to-test mapping of `find_changed_js_tests`, factored
over an explicit changed-file list (the spec's `map_js_tests`). -/
def map_js_tests (fs : String → FileState) (changed : List String) : List String :=
  dedupKeepFirst (jsTestsRaw fs changed)

/-- Model of `find_changed_js_tests()` from `runners.py`. -/
def find_changed_js_tests (env : Env) : List String :=
  map_js_tests env.fs (get_git_changed_files env)

/-- Python truthiness of an optional string (`argparse` leaves unset string
options as `None`): `None` and the empty string are falsy. -/
def optStrTruthy : Option String → Bool
  | none => false
  | some s => !s.isEmpty

/-- Model of `build_runner_command(runner, tests, expression)` from `runners.py`
(identical in `devtriage.py`): base invocation per runner, the runner's
filter flag plus the expression when the expression is truthy, then the test
targets; `none` for any other runner string. -/
def build_runner_command (runner : String) (tests : List String)
    (expression : Option String) : Option (List String) :=
  if runner == "pytest" then
    let cmd := ["pytest", "-q"]
    let cmd := if optStrTruthy expression then cmd ++ ["-k", expression.getD ""] else cmd
    let cmd := if tests.isEmpty then cmd else cmd ++ tests
    some cmd
  else if runner == "nose" then
    let cmd := ["nosetests"]
    let cmd := if optStrTruthy expression then cmd ++ ["-m", expression.getD ""] else cmd
    let cmd := if tests.isEmpty then cmd else cmd ++ tests
    some cmd
  else if runner == "jest" then
    let cmd := ["npx", "jest"]
    let cmd := if optStrTruthy expression then
      cmd ++ ["--testNamePattern", expression.getD ""] else cmd
    let cmd := if tests.isEmpty then cmd else cmd ++ tests
    some cmd
  else if runner == "mocha" then
    let cmd := ["npx", "mocha"]
    let cmd := if optStrTruthy expression then cmd ++ ["--grep", expression.getD ""] else cmd
    let cmd := if tests.isEmpty then cmd else cmd ++ tests
    some cmd
  else
    none

/-- The caller-controlled flags of the `focus` subcommand: the `--runner`
choice (`None` when unset), the `--pytest` shortcut, the `--auto` flag, and
the `-k` filter expression (`None` when unset). -/
structure FocusArgs where
  runner : Option String
  pytest : Bool
  auto : Bool
  k : Option String

/-- The observable outcome of one focus orchestration run: an abort with its
diagnostic (the unsupported-runner abort carries the implementation's message
text, the no-strategy abort carries the offending runner name interpolated
into `No focus strategy implemented for runner ...`), or a dispatch of the
assembled command to the command executor. -/
inductive FocusOutcome
  | abortUnsupported (msg : String)
  | abortNoTests (msg : String)
  | abortNoStrategy (runner : String)
  | dispatched (runner : String) (command : List String)
deriving DecidableEq

/-- The runner-resolution step of `focus_command` (`runners.py` lines
145–150): the `--pytest` shortcut overrides `--runner`, and detection runs
whenever `--auto` is set or no truthy runner remains.  The boolean records
whether the detector was consulted. -/
def selectRunnerPkg (env : Env) (a : FocusArgs) : Except Unit (String × Bool) :=
  let r1 := if a.pytest then some "pytest" else a.runner
  if a.auto || !optStrTruthy r1 then
    (detect_test_runner env).map (fun d => (d, true))
  else
    .ok (r1.getD "", false)

/-- The runner-resolution step of `cmd_focus` (`devtriage.py` lines 322–330):
a truthy `--runner` wins, else the `--pytest` shortcut, else detection (the
inner `args.auto or not args.runner` test is always true on that branch). -/
def selectRunnerLegacy (env : Env) (a : FocusArgs) : Except Unit (String × Bool) :=
  if optStrTruthy a.runner then
    .ok (a.runner.getD "", false)
  else if a.pytest then
    .ok ("pytest", false)
  else
    (detect_test_runner env).map (fun d => (d, true))

/-- The target-selection routing shared by both orchestrations: the Python
mapper for `pytest`/`nose`, the JS mapper otherwise. -/
def targetsFor (env : Env) (runner : String) : List String :=
  if runner == "pytest" || runner == "nose" then find_changed_python_tests env
  else find_changed_js_tests env

/-- The steps of both orchestrations after runner resolution (identical in
the two sources apart from the unsupported-runner message text, passed in as
`unsupportedMsg`). -/
def focusRest (env : Env) (a : FocusArgs) (unsupportedMsg : String)
    (runner : String) : FocusOutcome :=
  if !(SUPPORTED_RUNNERS.contains runner) then
    .abortUnsupported unsupportedMsg
  else
    let tests := targetsFor env runner
    if tests.isEmpty && !optStrTruthy a.k then
      .abortNoTests "No changed tests detected. Run full suite or pass -k/--runner."
    else
      match build_runner_command runner tests a.k with
      | none => .abortNoStrategy runner
      | some cmd => .dispatched runner cmd

/-- Model of `focus_command(args)` from `runners.py` (lines 144–168), as the outcome
it produces; `Except.error ()` models a detection exception escaping. -/
def focus_command (env : Env) (a : FocusArgs) : Except Unit FocusOutcome :=
  (selectRunnerPkg env a).map (fun rd =>
    focusRest env a "No focus strategy selected. Use --runner/--pytest or enable --auto." rd.1)

/-- Model of `cmd_focus(args)` from the legacy script `devtriage.py` (lines 321–349),
as the outcome it produces. -/
def cmd_focus (env : Env) (a : FocusArgs) : Except Unit FocusOutcome :=
  (selectRunnerLegacy env a).map (fun rd =>
    focusRest env a
      "No focus strategy selected. Use --runner, --pytest, or allow auto-detection." rd.1)

/-- The command an orchestration outcome hands to the command executor, with
the runner it resolved: `none` for every abort (and for a detection
exception). -/
def dispatchOf : Except Unit FocusOutcome → Option (String × List String)
  | .ok (.dispatched r c) => some (r, c)
  | _ => none

/-- Modelled from the spec's words (§4.1 step 3): walk the pytest marker list
in order; an existing `setup.cfg`/`tox.ini`/`pyproject.toml` counts only when
its raw text contains the substring `pytest`, while `pytest.ini` and
`conftest.py` count by mere existence. -/
def specPytestWalk (fs : String → FileState) : List String → Option String
  | [] => none
  | m :: rest =>
    if fsExists fs m then
      if m == "setup.cfg" || m == "tox.ini" || m == "pyproject.toml" then
        if file_contains fs m "pytest" then some "pytest" else specPytestWalk fs rest
      else some "pytest"
    else specPytestWalk fs rest

/-- Modelled from the spec's words (§4.1 step 4): walk the nose marker list
in order; the first marker that exists and whose raw text contains
`nosetests` yields `nose`. -/
def specNoseWalk (fs : String → FileState) : List String → Option String
  | [] => none
  | m :: rest =>
    if fsExists fs m && file_contains fs m "nosetests" then some "nose"
    else specNoseWalk fs rest

/-- Modelled from the spec's words (§4.1 steps 3–5): the marker phase of
detection — pytest markers `[pytest.ini, conftest.py, tox.ini, setup.cfg,
pyproject.toml]`, then nose markers `[nose.cfg, setup.cfg, tox.ini]`, then
the default `pytest`. -/
def specMarkerScan (fs : String → FileState) : String :=
  match specPytestWalk fs ["pytest.ini", "conftest.py", "tox.ini", "setup.cfg",
      "pyproject.toml"] with
  | some r => r
  | none =>
    match specNoseWalk fs ["nose.cfg", "setup.cfg", "tox.ini"] with
    | some r => r
    | none => "pytest"

/-- Modelled from the spec's words (§3 / §4.2 output contract): "deduplicated
(first-seen-wins), order-preserving" — insert elements left to right,
appending each element not yet present. -/
def firstSeenOrder (xs : List String) : List String :=
  xs.foldl (fun acc x => if acc.contains x then acc else acc ++ [x]) []

/-- Modelled from the spec's words (§4.2): a kept Python file is a direct
target when its path contains a directory segment literally named `tests`,
or its stem starts with `test_`, or its stem ends with `_test`; otherwise
each of the companions `tests/test_<stem>.py` and `tests/<stem>_test.py`
that exists on disk is a target. -/
def specPyContrib (fs : String → FileState) (file : String) : List String :=
  if ("tests" ∈ pathParts file) ∨ strStarts (pathStem file) "test_" = true
      ∨ strEnds (pathStem file) "_test" = true then
    [strOfPath file]
  else
    ["tests/test_" ++ pathStem file ++ ".py",
     "tests/" ++ pathStem file ++ "_test.py"].filter (fun c => fsExists fs c)

/-- Modelled from the spec's words (§4.3): the base invocation and filter
flag of each of the four enumerated runners. -/
def specRunnerBase (runner : String) : Option (List String × String) :=
  if runner == "pytest" then some (["pytest", "-q"], "-k")
  else if runner == "nose" then some (["nosetests"], "-m")
  else if runner == "jest" then some (["npx", "jest"], "--testNamePattern")
  else if runner == "mocha" then some (["npx", "mocha"], "--grep")
  else none

/-- Modelled from the spec's words (§4.3): base invocation, then the filter
flag and expression when the expression is non-empty, then all test targets
in order; no command outside the four enumerated kinds. -/
def specBuild (runner : String) (tests : List String) (expression : Option String) :
    Option (List String) :=
  (specRunnerBase runner).map (fun bf =>
    bf.1 ++ (if optStrTruthy expression then [bf.2, expression.getD ""] else []) ++ tests)

/-! General lemmas about the deduplication used by both mappers. -/

theorem contains_iff_mem {l : List String} {a : String} : l.contains a ↔ a ∈ l :=
  List.elem_iff

theorem dedupSeen_congr (xs : List String) : ∀ s1 s2 : List String,
    (∀ y, y ∈ s1 ↔ y ∈ s2) → dedupSeen s1 xs = dedupSeen s2 xs := by
  induction xs with
  | nil => intro s1 s2 _; rfl
  | cons x xs ih =>
    intro s1 s2 h
    have hc : s1.contains x = s2.contains x := by
      by_cases hx : x ∈ s1
      · rw [contains_iff_mem.mpr hx, contains_iff_mem.mpr ((h x).mp hx)]
      · have hx2 : x ∉ s2 := fun hm => hx ((h x).mpr hm)
        have e1 : s1.contains x = false := by
          by_contra hcne
          exact hx (contains_iff_mem.mp (Bool.of_not_eq_false hcne))
        have e2 : s2.contains x = false := by
          by_contra hcne
          exact hx2 (contains_iff_mem.mp (Bool.of_not_eq_false hcne))
        rw [e1, e2]
    simp only [dedupSeen, hc]
    by_cases hb : s2.contains x = true
    · simp only [if_pos hb]
      exact ih s1 s2 h
    · simp only [if_neg hb]
      exact congrArg (x :: ·) (ih (x :: s1) (x :: s2) (fun y => by simp [h y]))

theorem mem_dedupSeen (xs : List String) : ∀ (s : List String) (y : String),
    y ∈ dedupSeen s xs ↔ (y ∈ xs ∧ y ∉ s) := by
  induction xs with
  | nil => intro s y; simp [dedupSeen]
  | cons x xs ih =>
    intro s y
    simp only [dedupSeen]
    by_cases hb : s.contains x = true
    · rw [if_pos hb]
      have hxs : x ∈ s := contains_iff_mem.mp hb
      rw [ih s y]
      constructor
      · rintro ⟨hy, hys⟩; exact ⟨List.mem_cons_of_mem _ hy, hys⟩
      · rintro ⟨hy, hys⟩
        rcases List.mem_cons.mp hy with rfl | hy'
        · exact absurd hxs hys
        · exact ⟨hy', hys⟩
    · rw [if_neg hb]
      have hxs : x ∉ s := fun hm => hb (contains_iff_mem.mpr hm)
      constructor
      · intro hy
        rcases List.mem_cons.mp hy with rfl | hy'
        · exact ⟨List.mem_cons_self _ _, hxs⟩
        · rcases (ih (x :: s) y).mp hy' with ⟨h1, h2⟩
          exact ⟨List.mem_cons_of_mem _ h1,
            fun hm => h2 (List.mem_cons_of_mem _ hm)⟩
      · rintro ⟨hy, hys⟩
        rcases List.mem_cons.mp hy with rfl | hy'
        · exact List.mem_cons_self _ _
        · by_cases hyx : y = x
          · subst hyx; exact List.mem_cons_self _ _
          · exact List.mem_cons_of_mem _ ((ih (x :: s) y).mpr
              ⟨hy', fun hm => (List.mem_cons.mp hm).elim hyx hys⟩)

theorem dedupSeen_nodup (xs : List String) : ∀ s : List String,
    (dedupSeen s xs).Nodup := by
  induction xs with
  | nil => intro s; exact List.nodup_nil
  | cons x xs ih =>
    intro s
    simp only [dedupSeen]
    by_cases hb : s.contains x = true
    · rw [if_pos hb]; exact ih s
    · rw [if_neg hb]
      refine List.nodup_cons.mpr ⟨fun hm => ?_, ih (x :: s)⟩
      exact ((mem_dedupSeen xs (x :: s) x).mp hm).2 (List.mem_cons_self _ _)

theorem dedupSeen_sublist (xs : List String) : ∀ s : List String,
    (dedupSeen s xs).Sublist xs := by
  induction xs with
  | nil => intro s; exact List.Sublist.refl _
  | cons x xs ih =>
    intro s
    simp only [dedupSeen]
    by_cases hb : s.contains x = true
    · rw [if_pos hb]; exact (ih s).cons x
    · rw [if_neg hb]; exact (ih (x :: s)).cons₂ x

theorem mem_dedupKeepFirst (xs : List String) (y : String) :
    y ∈ dedupKeepFirst xs ↔ y ∈ xs := by
  rw [dedupKeepFirst, mem_dedupSeen]
  simp

theorem dedupKeepFirst_nodup (xs : List String) : (dedupKeepFirst xs).Nodup :=
  dedupSeen_nodup xs []

theorem dedupKeepFirst_sublist (xs : List String) :
    (dedupKeepFirst xs).Sublist xs :=
  dedupSeen_sublist xs []

theorem foldl_firstSeen_eq (xs : List String) : ∀ acc : List String,
    xs.foldl (fun acc x => if acc.contains x then acc else acc ++ [x]) acc
      = acc ++ dedupSeen acc xs := by
  induction xs with
  | nil => intro acc; simp [dedupSeen]
  | cons x xs ih =>
    intro acc
    simp only [List.foldl_cons, dedupSeen]
    by_cases hb : acc.contains x = true
    · rw [if_pos hb, if_pos hb, ih acc]
    · rw [if_neg hb, if_neg hb, ih (acc ++ [x])]
      rw [dedupSeen_congr xs (acc ++ [x]) (x :: acc) (fun y => by
        simp [List.mem_append, List.mem_cons, or_comm])]
      simp

theorem firstSeenOrder_eq_dedupKeepFirst (xs : List String) :
    firstSeenOrder xs = dedupKeepFirst xs := by
  rw [firstSeenOrder, dedupKeepFirst, foldl_firstSeen_eq xs []]
  simp

/-! Lemmas relating the source marker scans to the spec-worded walks. -/

theorem contains_content_eq (m : String) :
    contentCheckedMarkers.contains m
      = (m == "setup.cfg" || m == "tox.ini" || m == "pyproject.toml") := by
  simp only [contentCheckedMarkers, List.contains, List.elem]
  cases m == "setup.cfg" <;> cases m == "tox.ini" <;> cases m == "pyproject.toml" <;> rfl

theorem findSome?_pytest_eq_walk (fs : String → FileState) : ∀ l : List String,
    (l.findSome? (fun marker =>
      if fsExists fs marker then
        if contentCheckedMarkers.contains marker then
          if file_contains fs marker "pytest" then some "pytest" else none
        else some "pytest"
      else none)) = specPytestWalk fs l := by
  intro l
  induction l with
  | nil => rfl
  | cons m rest ih =>
    rw [List.findSome?_cons, specPytestWalk]
    by_cases he : fsExists fs m = true
    · rw [if_pos he, if_pos he, contains_content_eq]
      by_cases hc : (m == "setup.cfg" || m == "tox.ini" || m == "pyproject.toml") = true
      · rw [if_pos hc, if_pos hc]
        by_cases hp : file_contains fs m "pytest" = true
        · rw [if_pos hp, if_pos hp]
        · rw [if_neg hp, if_neg hp, ih]
      · rw [if_neg hc, if_neg hc]
    · rw [if_neg he, if_neg he, ih]

theorem pytestScan_eq_specWalk (fs : String → FileState) :
    pytestScan fs = specPytestWalk fs ["pytest.ini", "conftest.py", "tox.ini",
      "setup.cfg", "pyproject.toml"] :=
  findSome?_pytest_eq_walk fs pytestMarkers

theorem findSome?_nose_eq_walk (fs : String → FileState) : ∀ l : List String,
    (l.findSome? (fun marker =>
      if fsExists fs marker && file_contains fs marker "nosetests" then some "nose"
      else none)) = specNoseWalk fs l := by
  intro l
  induction l with
  | nil => rfl
  | cons m rest ih =>
    rw [List.findSome?_cons, specNoseWalk]
    by_cases h : (fsExists fs m && file_contains fs m "nosetests") = true
    · rw [if_pos h, if_pos h]
    · rw [if_neg h, if_neg h, ih]

theorem noseScan_eq_specWalk (fs : String → FileState) :
    noseScan fs = specNoseWalk fs ["nose.cfg", "setup.cfg", "tox.ini"] :=
  findSome?_nose_eq_walk fs noseMarkers

/-! Lemmas supporting the totality analysis of detection. -/

theorem findSome?_value_cases {α β : Type} (f : α → Option β) (v : β)
    (h : ∀ a, f a = none ∨ f a = some v) : ∀ l : List α,
    l.findSome? f = none ∨ l.findSome? f = some v := by
  intro l
  induction l with
  | nil => exact Or.inl rfl
  | cons a rest ih =>
    rw [List.findSome?_cons]
    rcases h a with ha | ha
    · rw [ha]; exact ih
    · rw [ha]; exact Or.inr rfl

theorem pytestScan_value (fs : String → FileState) :
    pytestScan fs = none ∨ pytestScan fs = some "pytest" := by
  refine findSome?_value_cases _ _ (fun m => ?_) pytestMarkers
  by_cases he : fsExists fs m = true
  · by_cases hc : contentCheckedMarkers.contains m = true
    · have hc' : m ∈ contentCheckedMarkers := contains_iff_mem.mp hc
      by_cases hp : file_contains fs m "pytest" = true
      · right; simp [he, hc', hp]
      · left; simp [he, hc', hp]
    · have hc' : m ∉ contentCheckedMarkers := fun hm => hc (contains_iff_mem.mpr hm)
      right; simp [he, hc']
  · left; simp [he]

theorem noseScan_value (fs : String → FileState) :
    noseScan fs = none ∨ noseScan fs = some "nose" := by
  refine findSome?_value_cases _ _ (fun m => ?_) noseMarkers
  by_cases h : (fsExists fs m && file_contains fs m "nosetests") = true
  · right; simp [h]
  · left; simp [h]

/-! Lemmas relating the mappers and the assembler to their spec-worded forms. -/

theorem py_ext_contains_eq (s : String) :
    PYTHON_TEST_EXTENSIONS.contains s = (s == ".py") := by
  simp only [PYTHON_TEST_EXTENSIONS, List.contains, List.elem]
  cases s == ".py" <;> rfl

theorem py_direct_cond_iff (file : String) :
    ((pathParts file).contains "tests" || strStarts (pathStem file) "test_"
        || strEnds (pathStem file) "_test") = true
      ↔ (("tests" ∈ pathParts file) ∨ strStarts (pathStem file) "test_" = true
        ∨ strEnds (pathStem file) "_test" = true) := by
  simp [contains_iff_mem, or_assoc]

theorem pyContrib_eq_spec (fs : String → FileState) (file : String) :
    pyContrib fs file = specPyContrib fs file := by
  unfold pyContrib specPyContrib
  by_cases h : ("tests" ∈ pathParts file) ∨ strStarts (pathStem file) "test_" = true
      ∨ strEnds (pathStem file) "_test" = true
  · rw [if_pos ((py_direct_cond_iff file).mpr h), if_pos h]
  · rw [if_neg (fun hb => h ((py_direct_cond_iff file).mp hb)), if_neg h]
    by_cases h1 : fsExists fs ("tests/test_" ++ pathStem file ++ ".py") = true
      <;> by_cases h2 : fsExists fs ("tests/" ++ pathStem file ++ "_test.py") = true
      <;> simp [List.filter, h1, h2]

theorem build_runner_command_eq_spec (runner : String) (tests : List String)
    (expression : Option String) :
    build_runner_command runner tests expression = specBuild runner tests expression := by
  unfold build_runner_command specBuild specRunnerBase
  by_cases h1 : (runner == "pytest") = true
  · by_cases hk : optStrTruthy expression = true <;> cases tests <;> simp [h1, hk]
  · by_cases h2 : (runner == "nose") = true
    · by_cases hk : optStrTruthy expression = true <;> cases tests <;> simp [h1, h2, hk]
    · by_cases h3 : (runner == "jest") = true
      · by_cases hk : optStrTruthy expression = true <;> cases tests <;> simp [h1, h2, h3, hk]
      · by_cases h4 : (runner == "mocha") = true
        · by_cases hk : optStrTruthy expression = true <;> cases tests
            <;> simp [h1, h2, h3, h4, hk]
        · simp [h1, h2, h3, h4]

/-! The exception-freedom analysis of the manifest phase. -/

/-- The manifest parse outcomes on which the manifest phase of
`detect_test_runner` raises no exception: the parsed value is falsy (or the
file is absent or malformed), or it is a dict whose `dependencies`,
`devDependencies` and `scripts` fields pass the merge and join operations. -/
def WFManifest (pk : PkgFile) : Prop :=
  truthy (read_package_json pk) = false ∨
  ∃ fields, read_package_json pk = .obj fields ∧
    (dictKeys (pyOrEmpty (olookup fields "dependencies"))).isOk = true ∧
    (dictKeys (pyOrEmpty (olookup fields "devDependencies"))).isOk = true ∧
    (scriptBlob (pyOrEmpty (olookup fields "scripts"))).isOk = true

theorem jsPhase_cases (pkg : JsonVal)
    (hwf : truthy pkg = false ∨ ∃ fields, pkg = .obj fields ∧
      (dictKeys (pyOrEmpty (olookup fields "dependencies"))).isOk = true ∧
      (dictKeys (pyOrEmpty (olookup fields "devDependencies"))).isOk = true ∧
      (scriptBlob (pyOrEmpty (olookup fields "scripts"))).isOk = true) :
    jsPhase pkg = .ok none ∨ jsPhase pkg = .ok (some "jest")
      ∨ jsPhase pkg = .ok (some "mocha") := by
  rcases hwf with hf | ⟨fields, rfl, hd, hv, hs⟩
  · left; unfold jsPhase; rw [if_neg (by simp [hf])]; rfl
  · by_cases ht : truthy (JsonVal.obj fields) = true
    · cases hdm : dictKeys (pyOrEmpty (olookup fields "dependencies")) with
      | error e => rw [hdm] at hd; cases hd
      | ok depKeys =>
        cases hvm : dictKeys (pyOrEmpty (olookup fields "devDependencies")) with
        | error e => rw [hvm] at hv; cases hv
        | ok devKeys =>
          cases hsm : scriptBlob (pyOrEmpty (olookup fields "scripts")) with
          | error e => rw [hsm] at hs; cases hs
          | ok blob =>
            unfold jsPhase
            rw [if_pos ht]
            simp only [hdm, hvm, hsm, Except.bind, bind, pure]
            by_cases he1 : ((depKeys ++ devKeys).contains "jest" || strHas blob "jest") = true
            · rw [if_pos he1]; right; left; rfl
            · rw [if_neg he1]
              by_cases he2 : ((depKeys ++ devKeys).contains "mocha"
                  || strHas blob "mocha") = true
              · rw [if_pos he2]; right; right; rfl
              · rw [if_neg he2]; left; rfl
    · left; unfold jsPhase; rw [if_neg ht]; rfl

theorem findSome?_eq_none {α β : Type} (f : α → Option β) (h : ∀ a, f a = none) :
    ∀ l : List α, l.findSome? f = none := by
  intro l
  induction l with
  | nil => rfl
  | cons a rest ih => rw [List.findSome?_cons, h a]; exact ih

/-! The claims. -/

/-- A manifest whose merged dependency map contains the key `jest` but whose
`scripts` value is the (truthy, non-dict) string `"jest"`. -/
def fieldsC1bad : List (String × JsonVal) :=
  [("dependencies", .obj [("jest", .str "^29.0.0")]), ("scripts", .str "jest")]

/-- An invocation state holding `fieldsC1bad` as the parsed manifest. -/
def envC1bad : Env := ⟨.parsed (.obj fieldsC1bad), fun _ => .absent, .failure⟩

/-- C1, counterexample: a filesystem state in which the package manifest
exists and its merged `dependencies`/`devDependencies` map contains the key
`jest`, yet `detect()` raises (the string-valued `scripts` field makes
`" ".join(scripts.values())` fail) instead of returning `jest`. -/
theorem detect_jest_precedence_counterexample :
    dictKeys (pyOrEmpty (olookup fieldsC1bad "dependencies")) = .ok ["jest"] ∧
    detect_test_runner envC1bad = .error () ∧
    (detect_test_runner envC1bad).isOk = false :=
  ⟨rfl, rfl, rfl⟩

/-- C1 (amended): for every filesystem state in which the package manifest
parses to an object whose dependency merge and script join succeed, if the
merged `dependencies`/`devDependencies` key set contains `jest` or the
space-joined script command strings contain the substring `jest`, then
`detect()` returns `jest`, regardless of which pytest/nose marker files are
present. -/
theorem detect_jest_precedence : ∀ (fields : List (String × JsonVal))
    (fs : String → FileState) (git : GitResult) (depKeys devKeys : List String)
    (blob : String),
    dictKeys (pyOrEmpty (olookup fields "dependencies")) = .ok depKeys →
    dictKeys (pyOrEmpty (olookup fields "devDependencies")) = .ok devKeys →
    scriptBlob (pyOrEmpty (olookup fields "scripts")) = .ok blob →
    ((depKeys ++ devKeys).contains "jest" || strHas blob "jest") = true →
    detect_test_runner ⟨.parsed (.obj fields), fs, git⟩ = .ok "jest" := by
  intro fields fs git depKeys devKeys blob hd hv hs hev
  have hne : fields ≠ [] := by
    rintro rfl
    simp only [olookup, List.find?, pyOrEmpty, dictKeys, scriptBlob, strValues,
      Except.map, Except.ok.injEq] at hd hv hs
    subst hd; subst hv; subst hs
    simp only [List.nil_append, List.contains, List.elem] at hev
    exact absurd hev (by decide)
  have hjs : jsPhase (read_package_json (.parsed (.obj fields))) = .ok (some "jest") := by
    unfold read_package_json jsPhase
    rw [if_pos (by simp [truthy, hne])]
    simp only [hd, hv, hs, Except.bind, bind]
    rw [if_pos hev]
    rfl
  unfold detect_test_runner
  simp only [hjs, Except.bind, bind]
  rfl

/-- A manifest declaring `jest` under `devDependencies`, together with an
existing `pytest.ini` marker. -/
def fieldsC1 : List (String × JsonVal) := [("devDependencies", .obj [("jest", .str "^29.0.0")])]

/-- A filesystem in which `pytest.ini` exists. -/
def fsC1 : String → FileState := fun p =>
  if p = "pytest.ini" then .readable "[pytest]\n" else .absent

theorem detect_jest_precedence_witness :
    detect_test_runner ⟨.parsed (.obj fieldsC1), fsC1, .failure⟩ = .ok "jest" :=
  detect_jest_precedence fieldsC1 fsC1 .failure [] ["jest"] "" rfl rfl rfl (by decide)

/-- An invocation state whose `package.json` parses to the JSON array
`[1]` — valid JSON, not an object. -/
def envC2arr : Env := ⟨.parsed (.arr [.num 1]), fun _ => .absent, .failure⟩

/-- C2, counterexample: a `package.json` parsing to a (truthy) JSON array
makes `detect()` raise an `AttributeError` at `package_json.get("scripts")`
instead of returning one of the four runner values. -/
theorem detect_total_counterexample :
    truthy (.arr [.num 1]) = true ∧
    detect_test_runner envC2arr = .error () ∧
    (detect_test_runner envC2arr).isOk = false :=
  ⟨rfl, rfl, rfl⟩

/-- C2 (amended): `detect()` raises no exception and returns exactly one of
the four values `{pytest, nose, jest, mocha}` for every filesystem state
whose manifest parse outcome is well-formed (absent, malformed, falsy, or an
object with mergeable dependency fields and joinable scripts); with no
manifest and no marker files at all it returns the default `pytest`. -/
theorem detect_total : ∀ env : Env, WFManifest env.pkg →
    (∃ r, detect_test_runner env = .ok r ∧ SUPPORTED_RUNNERS.contains r = true) ∧
    ((env.pkg = PkgFile.absent ∧ ∀ p, env.fs p = FileState.absent) →
      detect_test_runner env = .ok "pytest") := by
  intro env hwf
  constructor
  · rcases jsPhase_cases (read_package_json env.pkg) hwf with hj | hj | hj
    · rcases pytestScan_value env.fs with hp | hp
      · rcases noseScan_value env.fs with hn | hn
        · exact ⟨"pytest", by simp [detect_test_runner, hj, hp, hn, bind, Except.bind, pure, Except.pure],
            by decide⟩
        · exact ⟨"nose", by simp [detect_test_runner, hj, hp, hn, bind, Except.bind, pure, Except.pure],
            by decide⟩
      · exact ⟨"pytest", by simp [detect_test_runner, hj, hp, bind, Except.bind, pure, Except.pure],
          by decide⟩
    · exact ⟨"jest", by simp [detect_test_runner, hj, bind, Except.bind, pure, Except.pure], by decide⟩
    · exact ⟨"mocha", by simp [detect_test_runner, hj, bind, Except.bind, pure, Except.pure], by decide⟩
  · rintro ⟨hpkg, hfs⟩
    have hj : jsPhase (read_package_json env.pkg) = .ok none := by rw [hpkg]; rfl
    have hex : ∀ m, fsExists env.fs m = false := fun m => by simp [fsExists, hfs m]
    have hp : pytestScan env.fs = none := by
      refine findSome?_eq_none _ (fun m => ?_) pytestMarkers
      simp [hex m]
    have hn : noseScan env.fs = none := by
      refine findSome?_eq_none _ (fun m => ?_) noseMarkers
      simp [hex m]
    simp [detect_test_runner, hj, hp, hn, bind, Except.bind, pure, Except.pure]

/-- An invocation state with no `package.json` and an entirely empty working
directory. -/
def envC2w : Env := ⟨.absent, fun _ => .absent, .failure⟩

theorem detect_total_witness : detect_test_runner envC2w = .ok "pytest" :=
  (detect_total envC2w (Or.inl rfl)).2 ⟨rfl, fun _ => rfl⟩

/-- A working directory containing only a `setup.cfg` whose raw text is
`[nosetests]` plus a verbosity line, with no `package.json`. -/
def fsSetupNose : String → FileState := fun p =>
  if p = "setup.cfg" then .readable "[nosetests]\nverbosity=2\n" else .absent

/-- The invocation state over `fsSetupNose`. -/
def envSetupNose : Env := ⟨.absent, fsSetupNose, .failure⟩

/-- C3: whenever the manifest phase yields no jest/mocha evidence, detection
is exactly the spec-worded marker scan — the pytest markers `[pytest.ini,
conftest.py, tox.ini, setup.cfg, pyproject.toml]` in order, existence alone
sufficing for `pytest.ini`/`conftest.py` and a raw-text `pytest` substring
required for the other three, then the nose markers `[nose.cfg, setup.cfg,
tox.ini]` with an existence-plus-`nosetests` check, then the default
`pytest`; in particular a working directory with only a `setup.cfg`
containing `[nosetests]` yields `nose`. -/
theorem detect_marker_scan_spec :
    (∀ env : Env, jsPhase (read_package_json env.pkg) = .ok none →
      detect_test_runner env = .ok (specMarkerScan env.fs)) ∧
    detect_test_runner envSetupNose = .ok "nose" := by
  constructor
  · intro env hjs
    unfold detect_test_runner
    simp only [hjs, Except.bind, bind]
    unfold specMarkerScan
    rw [← pytestScan_eq_specWalk, ← noseScan_eq_specWalk]
    cases pytestScan env.fs with
    | some r => rfl
    | none =>
      cases noseScan env.fs with
      | some r => rfl
      | none => rfl
  · rfl

theorem detect_marker_scan_spec_witness :
    detect_test_runner envSetupNose = .ok (specMarkerScan envSetupNose.fs) :=
  detect_marker_scan_spec.1 envSetupNose rfl

/-- A filesystem in which `tests/test_foo.py` exists and `tests/foo_test.py`
does not. -/
def fsC4 : String → FileState := fun p =>
  if p = "tests/test_foo.py" then .readable "" else .absent

/-- C4: `map_python_tests` keeps exactly the `.py` changed files; each kept
file contributes itself when it is a test file (a `tests` path segment, a
`test_` stem start, or a `_test` stem end) and otherwise contributes the
companions `tests/test_<stem>.py` and `tests/<stem>_test.py` exactly when
they exist on disk, the whole output deduplicated first-seen-first; in
particular changed files `["src/foo.py"]` with `tests/test_foo.py` existing
and `tests/foo_test.py` absent map to `["tests/test_foo.py"]`. -/
theorem map_python_tests_characterisation :
    (∀ (fs : String → FileState) (changed : List String),
      map_python_tests fs changed = firstSeenOrder
        (((changed.filter (fun f => pathSuffix f == ".py")).map (specPyContrib fs)).flatten)) ∧
    map_python_tests fsC4 ["src/foo.py"] = ["tests/test_foo.py"] := by
  constructor
  · intro fs changed
    have hf : (fun f => PYTHON_TEST_EXTENSIONS.contains (pathSuffix f))
        = (fun f => pathSuffix f == ".py") :=
      funext (fun f => py_ext_contains_eq (pathSuffix f))
    have hg : pyContrib fs = specPyContrib fs := funext (pyContrib_eq_spec fs)
    rw [map_python_tests, firstSeenOrder_eq_dedupKeepFirst, pyTestsRaw, hf, hg]
  · rfl

/-- C5: for every changed-file list and filesystem state, the outputs of the
Python and JS mappers contain no duplicate paths, are sublists of the raw
per-file production (so surviving occurrences keep production order), keep
exactly the produced paths, and equal the spec-worded first-seen-wins
insertion-order deduplication of the raw production. -/
theorem test_targets_dedup_invariant : ∀ env : Env,
    (find_changed_python_tests env).Nodup ∧ (find_changed_js_tests env).Nodup ∧
    (find_changed_python_tests env).Sublist
      (pyTestsRaw env.fs (get_git_changed_files env)) ∧
    (find_changed_js_tests env).Sublist
      (jsTestsRaw env.fs (get_git_changed_files env)) ∧
    (∀ x, x ∈ find_changed_python_tests env
      ↔ x ∈ pyTestsRaw env.fs (get_git_changed_files env)) ∧
    (∀ x, x ∈ find_changed_js_tests env
      ↔ x ∈ jsTestsRaw env.fs (get_git_changed_files env)) ∧
    find_changed_python_tests env
      = firstSeenOrder (pyTestsRaw env.fs (get_git_changed_files env)) ∧
    find_changed_js_tests env
      = firstSeenOrder (jsTestsRaw env.fs (get_git_changed_files env)) := by
  intro env
  refine ⟨dedupKeepFirst_nodup _, dedupKeepFirst_nodup _,
    dedupKeepFirst_sublist _, dedupKeepFirst_sublist _,
    fun x => mem_dedupKeepFirst _ x, fun x => mem_dedupKeepFirst _ x,
    (firstSeenOrder_eq_dedupKeepFirst _).symm, (firstSeenOrder_eq_dedupKeepFirst _).symm⟩

/-- C6: `build_command` returns, for each of the four enumerated runners,
exactly the base prefix, then the runner's filter flag with the expression
when the expression is non-empty, then all test targets in order, and the
no-command signal for every other runner value (captured by the spec-worded
`specBuild`); the spec's concrete examples evaluate accordingly. -/
theorem build_command_shape :
    (∀ (runner : String) (tests : List String) (expression : Option String),
      build_runner_command runner tests expression = specBuild runner tests expression) ∧
    build_runner_command "pytest" [] none = some ["pytest", "-q"] ∧
    build_runner_command "pytest" ["tests/test_a.py"] (some "slow")
      = some ["pytest", "-q", "-k", "slow", "tests/test_a.py"] ∧
    build_runner_command "jest" ["a.test.js"] (some "foo")
      = some ["npx", "jest", "--testNamePattern", "foo", "a.test.js"] ∧
    build_runner_command "tox" ["x"] (some "e") = none :=
  ⟨build_runner_command_eq_spec, rfl, rfl, rfl, rfl⟩

theorem focusRest_abort_empty (env : Env) (a : FocusArgs) (msg r : String)
    (hk : optStrTruthy a.k = false) (ht : targetsFor env r = [])
    (hsup : SUPPORTED_RUNNERS.contains r = true) :
    focusRest env a msg r
      = .abortNoTests "No changed tests detected. Run full suite or pass -k/--runner." := by
  unfold focusRest
  rw [hsup]
  simp [ht, hk]

/-- C7: in both orchestrations, whenever the resolved runner is supported,
its mapped target list is empty and no filter expression was supplied, the
run aborts with the one-line no-changed-tests diagnostic and no command is
assembled or handed to the command executor. -/
theorem focus_abort_on_empty : ∀ (env : Env) (a : FocusArgs) (r : String) (b : Bool),
    optStrTruthy a.k = false → targetsFor env r = [] →
    SUPPORTED_RUNNERS.contains r = true →
    (selectRunnerPkg env a = .ok (r, b) →
      focus_command env a = .ok (.abortNoTests
        "No changed tests detected. Run full suite or pass -k/--runner.") ∧
      dispatchOf (focus_command env a) = none) ∧
    (selectRunnerLegacy env a = .ok (r, b) →
      cmd_focus env a = .ok (.abortNoTests
        "No changed tests detected. Run full suite or pass -k/--runner.") ∧
      dispatchOf (cmd_focus env a) = none) := by
  intro env a r b hk ht hsup
  constructor
  · intro hr
    have h1 : focus_command env a = .ok (.abortNoTests
        "No changed tests detected. Run full suite or pass -k/--runner.") := by
      rw [focus_command, hr]
      simp only [Except.map]
      rw [focusRest_abort_empty env a _ r hk ht hsup]
    exact ⟨h1, by rw [h1]; rfl⟩
  · intro hr
    have h1 : cmd_focus env a = .ok (.abortNoTests
        "No changed tests detected. Run full suite or pass -k/--runner.") := by
      rw [cmd_focus, hr]
      simp only [Except.map]
      rw [focusRest_abort_empty env a _ r hk ht hsup]
    exact ⟨h1, by rw [h1]; rfl⟩

/-- An invocation state in which the version-control query fails and the
working directory is empty. -/
def envC7w : Env := ⟨.absent, fun _ => .absent, .failure⟩

/-- The focus flags forcing the `pytest` runner with no filter expression. -/
def argsC7w : FocusArgs := ⟨some "pytest", false, false, none⟩

theorem focus_abort_on_empty_witness :
    (focus_command envC7w argsC7w = .ok (.abortNoTests
        "No changed tests detected. Run full suite or pass -k/--runner.") ∧
      dispatchOf (focus_command envC7w argsC7w) = none) ∧
    (cmd_focus envC7w argsC7w = .ok (.abortNoTests
        "No changed tests detected. Run full suite or pass -k/--runner.") ∧
      dispatchOf (cmd_focus envC7w argsC7w) = none) :=
  ⟨(focus_abort_on_empty envC7w argsC7w "pytest" false rfl rfl (by decide)).1 rfl,
   (focus_abort_on_empty envC7w argsC7w "pytest" false rfl rfl (by decide)).2 rfl⟩

/-- An invocation state whose manifest declares `jest` as a dependency. -/
def envC8c : Env :=
  ⟨.parsed (.obj [("dependencies", .obj [("jest", .str "^29.0.0")])]),
    fun _ => .absent, .failure⟩

/-- The focus flags forcing runner `nose` while also requesting
auto-detection. -/
def argsC8c : FocusArgs := ⟨some "nose", false, true, none⟩

/-- C8, counterexample: in the package module's `focus_command`, a caller who
forces runner `nose` but also passes `--auto` does not get the forced value —
the Runner Detector is consulted (flag `true`) and its answer `jest` replaces
the forced `nose`. -/
theorem select_runner_forced_counterexample :
    selectRunnerPkg envC8c argsC8c = .ok ("jest", true) ∧ ("jest" : String) ≠ "nose" :=
  ⟨rfl, by decide⟩

/-- C8 (amended): in both orchestrations, when the caller forces a runner
(via the runner option or the pytest shortcut) and does not request
auto-detection, the forced value is used — `focus_command` letting the pytest
shortcut override the runner option and `cmd_focus` the reverse — and the
Runner Detector is not consulted; the detector is consulted only when
auto-detection was requested or no forced runner was supplied (in `cmd_focus`
only when no forced runner was supplied). -/
theorem select_runner_forced :
    (∀ (env : Env) (a : FocusArgs), a.auto = false →
      (optStrTruthy a.runner || a.pytest) = true →
      selectRunnerPkg env a
          = .ok ((if a.pytest then "pytest" else a.runner.getD ""), false) ∧
      selectRunnerLegacy env a
          = .ok ((if optStrTruthy a.runner then a.runner.getD "" else "pytest"), false)) ∧
    (∀ (env : Env) (a : FocusArgs) (r : String),
      selectRunnerPkg env a = .ok (r, true) →
      (a.auto || !(optStrTruthy a.runner || a.pytest)) = true) ∧
    (∀ (env : Env) (a : FocusArgs) (r : String),
      selectRunnerLegacy env a = .ok (r, true) →
      (optStrTruthy a.runner || a.pytest) = false) := by
  have hpe : "pytest".isEmpty = false := rfl
  refine ⟨?_, ?_, ?_⟩
  · intro env a ha hf
    cases hp : a.pytest <;> cases hr : optStrTruthy a.runner <;>
      simp_all [selectRunnerPkg, selectRunnerLegacy, optStrTruthy]
  · intro env a r h
    cases hp : a.pytest <;> cases ha : a.auto <;> cases hr : optStrTruthy a.runner <;>
      simp_all [selectRunnerPkg, selectRunnerLegacy, optStrTruthy]
  · intro env a r h
    cases hp : a.pytest <;> cases hr : optStrTruthy a.runner <;>
      simp_all [selectRunnerLegacy, optStrTruthy]

/-- An empty invocation state for the forced-runner witness. -/
def envC8w : Env := ⟨.absent, fun _ => .absent, .failure⟩

/-- The focus flags forcing runner `nose` without auto-detection. -/
def argsC8w : FocusArgs := ⟨some "nose", false, false, some "s"⟩

theorem select_runner_forced_witness :
    selectRunnerPkg envC8w argsC8w = .ok ("nose", false) ∧
    selectRunnerLegacy envC8w argsC8w = .ok ("nose", false) := by
  have h := select_runner_forced.1 envC8w argsC8w rfl (by decide)
  simpa using h

/-- An invocation state in which the version-control query fails. -/
def envC9w : Env := ⟨.absent, fun _ => .absent, .failure⟩

/-- C9: for every invocation in which the version-control collaborator
fails (command unavailable, non-repository, or any raised failure), the
changed-file query returns the empty list and both target mappers receive
and produce well-defined empty lists. -/
theorem git_failure_yields_empty : ∀ env : Env, env.git = GitResult.failure →
    get_git_changed_files env = [] ∧ find_changed_python_tests env = [] ∧
    find_changed_js_tests env = [] := by
  intro env hg
  refine ⟨?_, ?_, ?_⟩ <;>
    simp [get_git_changed_files, find_changed_python_tests, find_changed_js_tests,
      map_python_tests, map_js_tests, pyTestsRaw, jsTestsRaw, hg, dedupKeepFirst,
      dedupSeen]

theorem git_failure_yields_empty_witness :
    get_git_changed_files envC9w = [] ∧ find_changed_python_tests envC9w = [] ∧
    find_changed_js_tests envC9w = [] :=
  git_failure_yields_empty envC9w rfl

theorem focusRest_dispatch_msg_irrel : ∀ (env : Env) (a : FocusArgs) (m1 m2 r : String),
    dispatchOf (.ok (focusRest env a m1 r)) = dispatchOf (.ok (focusRest env a m2 r)) := by
  intro env a m1 m2 r
  unfold focusRest
  by_cases hs : (SUPPORTED_RUNNERS.contains r) = true
  · have hs2 : r ∈ SUPPORTED_RUNNERS := contains_iff_mem.mp hs
    simp [hs2]
  · have hs2 : r ∉ SUPPORTED_RUNNERS := fun hm => hs (contains_iff_mem.mpr hm)
    simp [hs2, dispatchOf]

/-- An empty invocation state for the orchestration-disagreement input. -/
def envC10c : Env := ⟨.absent, fun _ => .absent, .failure⟩

/-- The focus flags supplying both a forced runner `nose` and the pytest
shortcut, with a filter expression. -/
def argsC10c : FocusArgs := ⟨some "nose", true, false, some "x"⟩

/-- C10, counterexample: with `--runner nose --pytest -k x` the package
module's `focus_command` resolves `pytest` and dispatches
`pytest -q -k x` while the legacy script's `cmd_focus` resolves `nose` and
dispatches `nosetests -m x` — different runners and different commands. -/
theorem focus_orchestrations_disagree :
    focus_command envC10c argsC10c
      = .ok (.dispatched "pytest" ["pytest", "-q", "-k", "x"]) ∧
    cmd_focus envC10c argsC10c
      = .ok (.dispatched "nose" ["nosetests", "-m", "x"]) ∧
    dispatchOf (focus_command envC10c argsC10c)
      ≠ dispatchOf (cmd_focus envC10c argsC10c) :=
  ⟨rfl, rfl, by decide⟩

/-- C10 (amended): the two shipped focus orchestrations resolve the same
runner and dispatch the same command for every filesystem state,
version-control outcome and flag combination in which the auto flag is not
combined with a forced runner or the pytest shortcut and the runner option is
not combined with the pytest shortcut; outside those combinations they can
disagree (see the counterexample). -/
theorem focus_orchestrations_agree : ∀ (env : Env) (a : FocusArgs),
    (a.auto && (optStrTruthy a.runner || a.pytest)) = false →
    (optStrTruthy a.runner && a.pytest) = false →
    selectRunnerPkg env a = selectRunnerLegacy env a ∧
    dispatchOf (focus_command env a) = dispatchOf (cmd_focus env a) := by
  intro env a h1 h2
  have hpe : "pytest".isEmpty = false := rfl
  have hsel : selectRunnerPkg env a = selectRunnerLegacy env a := by
    cases hp : a.pytest <;> cases ha : a.auto <;> cases hr : optStrTruthy a.runner <;>
      simp_all [selectRunnerPkg, selectRunnerLegacy, optStrTruthy]
  refine ⟨hsel, ?_⟩
  rw [focus_command, cmd_focus, hsel]
  cases hE : selectRunnerLegacy env a with
  | error e => rfl
  | ok rd =>
    simp only [Except.map]
    exact focusRest_dispatch_msg_irrel env a _ _ rd.1

/-- An empty invocation state for the orchestration-agreement witness. -/
def envC10w : Env := ⟨.absent, fun _ => .absent, .failure⟩

/-- The focus flags using only the pytest shortcut plus a filter
expression. -/
def argsC10w : FocusArgs := ⟨none, true, false, some "x"⟩

theorem focus_orchestrations_agree_witness :
    selectRunnerPkg envC10w argsC10w = selectRunnerLegacy envC10w argsC10w ∧
    dispatchOf (focus_command envC10w argsC10w) = dispatchOf (cmd_focus envC10w argsC10w) :=
  focus_orchestrations_agree envC10w argsC10w (by decide) (by decide)

end Devtriage
